import Mathlib

/-!
Shallow embedding of the drop-mining orchestrator (`twitch.py`): the state
machine, the channel ranking and selection, the inventory refresh, the login
validation loop, the retrying request wrapper and the watch-loop progress
reconciliation, together with theorems settling the specified properties.
-/

namespace TwitchDrops

/-- The orchestration states (`constants.State`). -/
inductive State where
  | IDLE
  | INVENTORY_FETCH
  | GAMES_UPDATE
  | CHANNELS_CLEANUP
  | CHANNELS_FETCH
  | CHANNEL_SWITCH
  | EXIT
deriving DecidableEq, Repr

/-- The `_state` field together with the `_state_change` event flag. -/
structure StateBox where
  state : State
  state_change : Bool
deriving DecidableEq, Repr

/-- `Twitch.change_state`: assigns the requested state unless the current state
is `EXIT`, then sets the `_state_change` flag. -/
def change_state (box : StateBox) (s : State) : StateBox :=
  if box.state ≠ State.EXIT then { state := s, state_change := true }
  else { box with state_change := true }

/-- A game: identity plus display name (`utils.Game`); equality is by the whole
identity, never by rank. -/
structure Game where
  id : Nat
  name : String
deriving DecidableEq, Repr

/-- A channel, restricted to the fields `twitch.py` reads
(`channel.Channel`). -/
structure Channel where
  id : Nat
  name : String
  online : Bool
  viewers : Option Int
  game : Option Game
  drops_enabled : Bool
  priority : Bool
deriving DecidableEq, Repr

/-- A drop, with the fields `twitch.py` reads (`inventory.TimedDrop`).
`can_earn` is kept abstract as a predicate field, matching its call shape
`drop.can_earn(channel)`, because `inventory.py` is outside the embedded
module. -/
structure TimedDrop where
  id : String
  current_minutes : Nat
  remaining_minutes : Nat
  can_earn : Option Channel → Bool

/-- A campaign (`inventory.DropsCampaign`) with `can_earn` abstract as above;
the no-argument call `campaign.can_earn()` is modelled as `can_earn none`. -/
structure DropsCampaign where
  id : String
  game : Game
  ends_at : Int
  upcoming : Bool
  allowed_channels : List Channel
  drops : List TimedDrop
  can_earn : Option Channel → Bool

/-- Python `dict.get(key, default)` over a string-keyed association list. -/
def dictGet (d : List (String × Int)) (k : String) (default : Int) : Int :=
  match d.find? (fun p => p.1 == k) with
  | some p => p.2
  | none => default

/-- Membership test `game in self.games` for the eligible-games mapping. -/
def gamesContains (games : List (Game × Int)) (g : Game) : Bool :=
  games.any (fun p => p.1 == g)

/-- Lookup `self.games[game]` (callers guard it by `gamesContains`). -/
def gamesLookup (games : List (Game × Int)) (g : Game) : Int :=
  match games.find? (fun p => p.1 == g) with
  | some p => p.2
  | none => 0

/-- The `GAMES_UPDATE` eligible-games recomputation (`Twitch.run`,
`State.GAMES_UPDATE` branch): starting from a cleared mapping, each campaign's
game is recorded with rank `priorities.get(game.name, 0)` when the literal
source condition
`game not in self.games and (priority_only and game.name in priority and
game.name not in exclude) and campaign.can_earn()` holds. -/
def games_update (inventory : List DropsCampaign) (exclude priority : List String)
    (priority_only : Bool) (priorities : List (String × Int)) : List (Game × Int) :=
  inventory.foldl (fun games campaign =>
    let game := campaign.game
    if !gamesContains games game
        && (priority_only && priority.contains game.name && !(exclude.contains game.name))
        && campaign.can_earn none
    then games ++ [(game, dictGet priorities game.name 0)]
    else games) []

/-- `Twitch._viewers_key`: the viewer count, or `-1` when unknown. -/
def viewers_key (c : Channel) : Int :=
  match c.viewers with
  | some v => v
  | none => -1

/-- `Twitch._game_key`: `1` for a channel with no game, `0` for a game outside
the eligible mapping, otherwise the game's recorded rank. -/
def game_key (games : List (Game × Int)) (c : Channel) : Int :=
  match c.game with
  | none => 1
  | some g => if gamesContains games g then gamesLookup games g else 0

/-- `Twitch.can_watch`: eligible games exist, channel online with drops
enabled, its game is eligible, and some campaign can be progressed on it. -/
def can_watch (games : List (Game × Int)) (inventory : List DropsCampaign)
    (channel : Channel) : Bool :=
  if games.isEmpty then false
  else
    channel.online && channel.drops_enabled
      && (match channel.game with
          | none => false
          | some g => gamesContains games g)
      && inventory.any (fun campaign => campaign.can_earn (some channel))

/-- One stable `sorted(l, key=k)` pass (ascending); Python's sort is stable,
which `List.insertionSort` with a reflexive total relation models exactly:
an element is inserted before the first already-placed element with a
strictly greater key, and after equal keys. -/
def pySortKey {α : Type} (k : α → Int) (l : List α) : List α :=
  l.insertionSort (fun a b => k a ≤ k b)

/-- One stable `sorted(l, key=k, reverse=True)` pass (descending, stable). -/
def pySortKeyDesc {α : Type} (k : α → Int) (l : List α) : List α :=
  l.insertionSort (fun a b => k b ≤ k a)

/-- The priority flag viewed as the integer Python compares
(`False < True`). -/
def priority_key (c : Channel) : Int :=
  if c.priority then 1 else 0

/-- The `CHANNELS_FETCH` ranking (`Twitch.run`, `State.CHANNELS_FETCH`
branch): stable sort by viewer count descending, then by the priority flag
descending, then by game rank ascending — the last pass is the most
significant key. -/
def channels_fetch_order (games : List (Game × Int)) (new_channels : List Channel) :
    List Channel :=
  let ordered := pySortKeyDesc viewers_key new_channels
  let ordered := pySortKeyDesc priority_key ordered
  pySortKey (game_key games) ordered

/-- C4's ranking property exactly as claimed: priority beats non-priority at
equal game rank; more viewers first within equal flag and game rank; and —
unqualified — a channel with unknown viewer count never outranks one with
viewer count zero. -/
def rankingClaim : Prop :=
  ∀ (games : List (Game × Int)) (l : List Channel)
    (i j : Fin (channels_fetch_order games l).length), i < j →
    (game_key games ((channels_fetch_order games l).get i)
        = game_key games ((channels_fetch_order games l).get j) →
      (((channels_fetch_order games l).get j).priority →
        ((channels_fetch_order games l).get i).priority))
    ∧ (game_key games ((channels_fetch_order games l).get i)
          = game_key games ((channels_fetch_order games l).get j) →
        ((channels_fetch_order games l).get i).priority
          = ((channels_fetch_order games l).get j).priority →
        viewers_key ((channels_fetch_order games l).get j)
          ≤ viewers_key ((channels_fetch_order games l).get i))
    ∧ ¬(((channels_fetch_order games l).get i).viewers = none
        ∧ ((channels_fetch_order games l).get j).viewers = some 0)

/-- The `CHANNELS_FETCH` capacity trim (`Twitch.run`, `State.CHANNELS_FETCH`
branch): `max_channels = MAX_WEBSOCKETS * WS_TOPICS_LIMIT - 2`, the ranked
list is cut to its first `max_channels` entries, and the cut tail's
stream-state topics are unsubscribed. Returns the retained channels and the
channel ids whose topics are removed. -/
def channels_fetch_trim (MAX_WEBSOCKETS WS_TOPICS_LIMIT : Nat)
    (ordered_channels : List Channel) : List Channel × List Nat :=
  let max_channels := MAX_WEBSOCKETS * WS_TOPICS_LIMIT - 2
  let to_remove := ordered_channels.drop max_channels
  (ordered_channels.take max_channels, to_remove.map (fun c => c.id))

/-- Result of one `CHANNEL_SWITCH` evaluation (`Twitch.run`,
`State.CHANNEL_SWITCH` branch): the committed channel, whether the GUI
selection was consumed, the next state, and whether the pending
`_state_change` flag ends up cleared. -/
structure SwitchResult where
  watched : Option Channel
  selection_cleared : Bool
  next_state : State
  flag_cleared : Bool
deriving Repr

/-- The `CHANNEL_SWITCH` handler: the selected channel (consumed once) and
then the watched channel are tried first; failing those, the active set is
re-sorted by game rank and scanned; the first watchable candidate is watched
and the flag cleared, otherwise the machine goes `IDLE`. -/
def channel_switch (games : List (Game × Int)) (inventory : List DropsCampaign)
    (selected_channel : Option Channel) (watching_channel : Option Channel)
    (channels : List Channel) : SwitchResult :=
  let priority_channels : List Channel :=
    (match selected_channel with | some c => [c] | none => [])
      ++ (match watching_channel with | some c => [c] | none => [])
  let new_watching : Option Channel :=
    match priority_channels.find? (fun c => can_watch games inventory c) with
    | some c => some c
    | none =>
        (pySortKey (game_key games) channels).find?
          (fun c => can_watch games inventory c)
  match new_watching with
  | some c =>
      { watched := some c, selection_cleared := selected_channel.isSome,
        next_state := State.CHANNEL_SWITCH, flag_cleared := true }
  | none =>
      { watched := none, selection_cleared := selected_channel.isSome,
        next_state := State.IDLE, flag_cleared := false }

/-- The lexicographic refinement produced by one stable sorting pass with
relation `le` applied to a list previously ordered by `q`: strictly less by
`le`, or `le`-equivalent and already related by `q`. -/
def lexOf {α : Type} (le : α → α → Prop) (q : α → α → Prop) (a b : α) : Prop :=
  (le a b ∧ ¬ le b a) ∨ (le a b ∧ le b a ∧ q a b)

/-- The fields of one available-campaigns catalog entry that
`Twitch.fetch_inventory` inspects before fetching the campaign's details. -/
structure AvailableData where
  id : String
  status : String
  isAccountConnected : Bool
deriving DecidableEq, Repr

/-- Python dict insertion, for the `available_campaigns` comprehension: an
existing key keeps its position but takes the new value, a new key is
appended last. -/
def dictInsert (d : List (String × AvailableData)) (k : String) (v : AvailableData) :
    List (String × AvailableData) :=
  if d.any (fun p => p.1 == k) then
    d.map (fun p => if p.1 == k then (p.1, v) else p)
  else d ++ [(k, v)]

/-- The dict comprehension `{c["id"]: c for c in available_list if keep c}`. -/
def availableDict (available_list : List AvailableData)
    (keep : AvailableData → Bool) : List (String × AvailableData) :=
  available_list.foldl (fun d c => if keep c then dictInsert d c.id c else d) []

/-- The filter of the `available_campaigns` comprehension in
`Twitch.fetch_inventory`: status in `("ACTIVE", "UPCOMING")`, account
connected, and not already present in the in-progress inventory. -/
def availableKeep (existing_campaigns : List String) (c : AvailableData) : Bool :=
  (["ACTIVE", "UPCOMING"].contains c.status)
    && c.isAccountConnected
    && !(existing_campaigns.contains c.id)

/-- `Twitch.fetch_inventory`: the in-progress campaigns, extended by the
detail-fetched version of every qualifying catalog entry that can still be
progressed, sorted ascending by campaign end time. `fetch_campaign`
abstracts the network detail fetch, keyed by campaign id. -/
def fetch_inventory (ongoing_campaigns : List DropsCampaign)
    (available_list : List AvailableData)
    (fetch_campaign : String → DropsCampaign) : List DropsCampaign :=
  let campaigns := ongoing_campaigns
  let existing_campaigns : List String := campaigns.map (fun c => c.id)
  let available_campaigns :=
    availableDict available_list (availableKeep existing_campaigns)
  let campaigns := campaigns
    ++ ((available_campaigns.map (fun p => fetch_campaign p.1)).filter
        (fun campaign => campaign.can_earn none))
  pySortKey (fun c => c.ends_at) campaigns

/-- Outcome of `Twitch.check_login`'s validation loop: the validated token
and how many times the `_login()` flow ran, or the
`RuntimeError("Login verification failure")` raised after the loop. -/
inductive CheckLoginOutcome where
  | success (token : String) (logins : Nat)
  | failure (logins : Nat)
deriving DecidableEq, Repr

/-- The `for attempt in range(2)` validation loop of `Twitch.check_login`,
by remaining attempts (`fuel`). `status i` is the backend status answered to
the validation request of attempt `i`; `login_token n` is the access token
produced by the `n`-th `_login()` invocation (the login form flow itself is
out of scope here). Each iteration re-reads the cookie: an absent cookie
runs the login flow and stores its token in the cookie; a present cookie
with no cached token restores the token from it. A `401` clears the cookie
and continues; a `200` succeeds; any other status falls through to the next
iteration; an exhausted loop is the login-verification failure. -/
def check_login_loop (status : Nat → Nat) (login_token : Nat → String) :
    Nat → Nat → Option String → Option String → Nat → CheckLoginOutcome
  | 0, _, _, _, logins => CheckLoginOutcome.failure logins
  | fuel + 1, attempt, cookie, access_token, logins =>
    let step : String × Nat :=
      match cookie with
      | none => (login_token logins, logins + 1)
      | some c =>
          match access_token with
          | none => (c, logins)
          | some t => (t, logins)
    if status attempt = 401 then
      check_login_loop status login_token fuel (attempt + 1) none (some step.1) step.2
    else if status attempt = 200 then
      CheckLoginOutcome.success step.1 step.2
    else
      check_login_loop status login_token fuel (attempt + 1) cookie (some step.1) step.2

/-- `Twitch.check_login` session validation, started on the stored cookie and
cached token with the 2-attempt budget. -/
def check_login (status : Nat → Nat) (login_token : Nat → String)
    (cookie : Option String) (access_token : Option String) : CheckLoginOutcome :=
  check_login_loop status login_token 2 0 cookie access_token 0

/-- C8's error-handling claim as stated: any validation status other than
`200` and `401` is, by itself, a fatal login-verification failure. -/
def checkLoginClaim : Prop :=
  ∀ (status : Nat → Nat) (login_token : Nat → String)
    (cookie : Option String) (access_token : Option String),
    status 0 ≠ 401 → status 0 ≠ 200 →
    ∃ n, check_login status login_token cookie access_token = CheckLoginOutcome.failure n

/-- Whether a `check_login` outcome is a success. -/
def isSuccess : CheckLoginOutcome → Bool
  | CheckLoginOutcome.success _ _ => true
  | CheckLoginOutcome.failure _ => false

/-- One attempt's backend outcome for `Twitch.request`: an
`aiohttp.ClientConnectionError`, any other exception (a decode error, a
raised HTTP error status, ...), or a response. Payloads are labelled by
naturals. -/
inductive ReqOutcome where
  | connError (e : Nat)
  | otherError (e : Nat)
  | success (r : Nat)
deriving DecidableEq, Repr

/-- What a whole `Twitch.request` call does: a response, the
`RequestException` raised from the last connection error once the attempts
are exhausted, or a non-connection exception propagated unchanged to the
caller. `sleeps` records the back-off sleeps performed, in seconds. -/
inductive ReqResult where
  | success (r : Nat) (sleeps : List ℚ)
  | requestError (cause : Option Nat) (sleeps : List ℚ)
  | otherRaised (e : Nat) (sleeps : List ℚ)
deriving DecidableEq, Repr

/-- The `for attempt in range(attempts)` loop of `Twitch.request`, indexed by
remaining iterations: a successful attempt returns the response, a
connection error is remembered as the cause and — when this was not the last
attempt — is followed by an `await asyncio.sleep(0.1 * attempt)`; any other
exception propagates immediately; the exhausted loop raises
`RequestException` from the last cause. -/
def request_loop (outcomes : Nat → ReqOutcome) (attempts : Nat) :
    Nat → Option Nat → List ℚ → ReqResult
  | 0, cause, sleeps => ReqResult.requestError cause sleeps
  | remaining + 1, _cause, sleeps =>
    let attempt := attempts - (remaining + 1)
    match outcomes attempt with
    | ReqOutcome.success r => ReqResult.success r sleeps
    | ReqOutcome.otherError e => ReqResult.otherRaised e sleeps
    | ReqOutcome.connError e =>
        request_loop outcomes attempts remaining (some e)
          (if attempt < attempts - 1
           then sleeps ++ [(1 / 10 : ℚ) * (attempt : ℚ)]
           else sleeps)

/-- `Twitch.request` with the given attempt budget (the source's default is
`attempts=5`), starting with no recorded cause and no sleeps. -/
def request (outcomes : Nat → ReqOutcome) (attempts : Nat) : ReqResult :=
  request_loop outcomes attempts attempts none []

/-- Lookup in the `_drops` id-to-drop mapping (`self._drops.get(drop_id)`). -/
def drops_get (drops : List (String × TimedDrop)) (drop_id : String) : Option TimedDrop :=
  match drops.find? (fun p => p.1 == drop_id) with
  | some p => some p.2
  | none => none

/-- `AwaitableValue.get_with_default`: the held value when one is set,
otherwise the supplied default. -/
def get_with_default {α : Type} (holder : Option α) (default : Option α) : Option α :=
  match holder with
  | some c => some c
  | none => default

/-- The `game = watching_channel is not None and watching_channel.game or
None` expression of `Twitch.get_active_drop`. -/
def channel_game (watching_channel : Option Channel) : Option Game :=
  match watching_channel with
  | some c => c.game
  | none => none

/-- `Twitch.get_active_drop`: `watching_value` models the watched-channel
holder's content and `channel` the optional argument, combined by
`get_with_default(channel)`. Drops earnable on the effective channel, from
eligible still-progressable campaigns, form the candidates, restricted to
campaigns matching the channel's game whenever that restriction is
non-empty; the candidate with the fewest remaining minutes wins. -/
def get_active_drop (games : List (Game × Int)) (inventory : List DropsCampaign)
    (watching_value : Option Channel) (channel : Option Channel) : Option TimedDrop :=
  if games.isEmpty then none
  else
    let watching_channel : Option Channel := get_with_default watching_value channel
    let game : Option Game := channel_game watching_channel
    let lists := inventory.foldl
      (fun (acc : List TimedDrop × List TimedDrop) campaign =>
        if gamesContains games campaign.game && campaign.can_earn watching_channel then
          (acc.1 ++ campaign.drops.filter (fun d => d.can_earn watching_channel),
           if (match game with
               | some g => campaign.game == g
               | none => false)
           then acc.2 ++ campaign.drops.filter (fun d => d.can_earn watching_channel)
           else acc.2)
        else acc) ([], [])
    let drops := if !lists.2.isEmpty then lists.2 else lists.1
    if !drops.isEmpty then
      (pySortKey (fun d => (d.remaining_minutes : Int)) drops).head?
    else none

/-- The non-strict candidate list of `get_active_drop`: all drops earnable on
the effective channel from eligible, still-progressable campaigns. -/
def active_drop_candidates (games : List (Game × Int)) (inventory : List DropsCampaign)
    (wc : Option Channel) : List TimedDrop :=
  ((inventory.filter (fun campaign =>
      gamesContains games campaign.game && campaign.can_earn wc)).map
    (fun campaign => campaign.drops.filter (fun d => d.can_earn wc))).flatten

/-- The strict candidate list of `get_active_drop`: candidates whose campaign
additionally plays the effective channel's game. -/
def active_drop_strict (games : List (Game × Int)) (inventory : List DropsCampaign)
    (wc : Option Channel) (game : Option Game) : List TimedDrop :=
  ((inventory.filter (fun campaign =>
      (gamesContains games campaign.game && campaign.can_earn wc)
        && (match game with
            | some g => campaign.game == g
            | none => false))).map
    (fun campaign => campaign.drops.filter (fun d => d.can_earn wc))).flatten

/-- The candidate pool `get_active_drop` actually minimises over: the strict
list when non-empty, the full list otherwise. -/
def active_drop_pool (games : List (Game × Int)) (inventory : List DropsCampaign)
    (wc : Option Channel) (game : Option Game) : List TimedDrop :=
  if !(active_drop_strict games inventory wc game).isEmpty
  then active_drop_strict games inventory wc game
  else active_drop_candidates games inventory wc

/-- How the 10-second progress rendezvous of `Twitch._watch_loop` ends: an
`asyncio.TimeoutError`, or resolution by the push handler with
`set_result(handled)`. -/
inductive Rendezvous where
  | timeout
  | resolved (handled : Bool)
deriving DecidableEq, Repr

/-- The relevant payload of the backend's current-drop query
(`GQL_OPERATIONS["CurrentDrop"]`), when `dropCurrentSession` is not null. -/
structure DropData where
  dropID : String
  currentMinutesWatched : Nat
deriving DecidableEq, Repr

/-- What the post-heartbeat reconciliation of one `_watch_loop` cycle did:
the push handler already applied the event; the poll's value was applied to
a tracked drop; the best local candidate's cached progress was bumped one
minute; the bump found no candidate (`Active drop search failed`); or no
update happened at all. -/
inductive WatchAction where
  | push_handled
  | poll_applied (drop_id : String) (minutes : Nat)
  | bumped (drop_id : String)
  | bump_failed
  | no_update
deriving DecidableEq, Repr

/-- The reconciliation tail of one `_watch_loop` cycle after a successful
heartbeat on `channel` (so the watched-channel holder holds `channel`):
given how the rendezvous ended and what the current-drop query would
answer, returns the action taken and whether that query was issued. On
timeout `use_active` is set, which skips the query; a negative resolution
issues the query; its answer is applied only for a tracked drop earnable on
the channel, a null session updates nothing, and any other answer falls
back to bumping the best local candidate. -/
def watch_step (drops : List (String × TimedDrop)) (games : List (Game × Int))
    (inventory : List DropsCampaign) (channel : Channel)
    (rendezvous : Rendezvous) (poll : Option DropData) : WatchAction × Bool :=
  let bump : WatchAction :=
    match get_active_drop games inventory (some channel) (some channel) with
    | some drop => WatchAction.bumped drop.id
    | none => WatchAction.bump_failed
  match rendezvous with
  | Rendezvous.resolved true => (WatchAction.push_handled, false)
  | Rendezvous.timeout => (bump, false)
  | Rendezvous.resolved false =>
      match poll with
      | none => (WatchAction.no_update, true)
      | some drop_data =>
          match drops_get drops drop_data.dropID with
          | none => (bump, true)
          | some drop =>
              if drop.can_earn (some channel) then
                (WatchAction.poll_applied drop_data.dropID drop_data.currentMinutesWatched,
                  true)
              else (bump, true)

/-- Result of `Twitch.process_drops` on a `drop-progress` event: how the
pending rendezvous future is resolved (`none` when no rendezvous is
pending) and which update, if any, was applied to a drop. -/
structure ProgressEventResult where
  rendezvous_result : Option Bool
  applied : Option (String × Nat)
deriving DecidableEq, Repr

/-- The `drop-progress` branch of `Twitch.process_drops`: with no pending
rendezvous the event is ignored; a tracked drop earnable on the watched
channel takes the event's value and resolves the rendezvous positively;
anything else resolves it negatively without applying an update. -/
def process_drops_progress (drops : List (String × TimedDrop)) (waiting : Bool)
    (watching_value : Option Channel) (drop_id : String)
    (current_progress_min : Nat) : ProgressEventResult :=
  if !waiting then { rendezvous_result := none, applied := none }
  else
    match drops_get drops drop_id with
    | some drop =>
        if drop.can_earn watching_value then
          { rendezvous_result := some true,
            applied := some (drop_id, current_progress_min) }
        else { rendezvous_result := some false, applied := none }
    | none => { rendezvous_result := some false, applied := none }

/-- C2's fallback-ladder claim as stated: a positive rendezvous means the
push event was applied with nothing else happening; a timeout or a negative
resolution issues the current-drop query; and a query identifying a tracked
drop earnable on the watched channel has its value applied — in particular
the query is issued even on timeout. -/
def watchClaim : Prop :=
  ∀ (drops : List (String × TimedDrop)) (games : List (Game × Int))
    (inventory : List DropsCampaign) (channel : Channel) (poll : Option DropData),
    watch_step drops games inventory channel (Rendezvous.resolved true) poll
        = (WatchAction.push_handled, false)
    ∧ (watch_step drops games inventory channel Rendezvous.timeout poll).2 = true
    ∧ (∀ dd drop, poll = some dd → drops_get drops dd.dropID = some drop →
        drop.can_earn (some channel) = true →
        (watch_step drops games inventory channel Rendezvous.timeout poll).1
            = WatchAction.poll_applied dd.dropID dd.currentMinutesWatched)

/-- C1: with priority-only mode off, the `GAMES_UPDATE` recomputation records
no game at all — the parenthesised condition starts with
`priority_only and ...`, so it is identically false when `priority_only` is
false, contradicting both the claim and the source's own `isn't excluded`
comment. -/
theorem games_update_empty_of_priority_only_off
    (inventory : List DropsCampaign) (exclude priority : List String)
    (priorities : List (String × Int)) :
    games_update inventory exclude priority false priorities = [] := by
  induction inventory with
  | nil => rfl
  | cons c t ih =>
    unfold games_update at ih ⊢
    simp [ih]

/-- C3: the state machine never leaves `EXIT` — once the state field is
`EXIT`, any sequence of further `change_state` requests leaves it `EXIT`. -/
theorem change_state_exit_sticky (requests : List State) (box : StateBox)
    (h : box.state = State.EXIT) :
    (requests.foldl change_state box).state = State.EXIT := by
  induction requests generalizing box with
  | nil => exact h
  | cons s t ih =>
    apply ih
    simp [change_state, h]

/-- Witness for C3 at a concrete request sequence. -/
theorem change_state_exit_sticky_witness :
    (([State.IDLE, State.INVENTORY_FETCH, State.CHANNEL_SWITCH]).foldl change_state
      { state := State.EXIT, state_change := false }).state = State.EXIT :=
  change_state_exit_sticky _ _ rfl

/-- Any list is pairwise related by the trivial relation. -/
theorem pairwise_trivial {α : Type} (l : List α) : l.Pairwise (fun _ _ => True) := by
  induction l with
  | nil => exact List.Pairwise.nil
  | cons x xs ih => exact List.Pairwise.cons (fun _ _ => trivial) ih

/-- Inserting into a `lexOf`-pairwise list keeps it `lexOf`-pairwise, when the
inserted element is `q`-above every `le`-equivalent element already there. -/
theorem orderedInsert_pairwise_lexOf {α : Type} (le : α → α → Prop) [DecidableRel le]
    (q : α → α → Prop) (htot : ∀ a b, le a b ∨ le b a)
    (htrans : ∀ a b c, le a b → le b c → le a c)
    (x : α) (l : List α) (h1 : l.Pairwise (lexOf le q))
    (h2 : ∀ y ∈ l, le x y → le y x → q x y) :
    (l.orderedInsert le x).Pairwise (lexOf le q) := by
  induction l with
  | nil => simp [List.orderedInsert, List.Pairwise.nil]
  | cons b t ih =>
    simp only [List.orderedInsert]
    by_cases hxb : le x b
    · rw [if_pos hxb]
      refine List.Pairwise.cons ?_ h1
      intro y hy
      rcases List.mem_cons.mp hy with rfl | hyt
      · by_cases hbx : le y x
        · exact Or.inr ⟨hxb, hbx, h2 y (List.mem_cons_self _ _) hxb hbx⟩
        · exact Or.inl ⟨hxb, hbx⟩
      · have hby : le b y := by
          rcases List.rel_of_pairwise_cons h1 hyt with ⟨h, _⟩ | ⟨h, _, _⟩ <;> exact h
        have hxy : le x y := htrans x b y hxb hby
        by_cases hyx : le y x
        · exact Or.inr ⟨hxy, hyx, h2 y (List.mem_cons_of_mem _ hyt) hxy hyx⟩
        · exact Or.inl ⟨hxy, hyx⟩
    · rw [if_neg hxb]
      have hbx : le b x := (htot x b).resolve_left hxb
      refine List.Pairwise.cons ?_
        (ih h1.of_cons (fun y hy => h2 y (List.mem_cons_of_mem _ hy)))
      intro y hy
      rcases (List.mem_orderedInsert le).mp hy with rfl | hyt
      · exact Or.inl ⟨hbx, hxb⟩
      · exact List.rel_of_pairwise_cons h1 hyt

/-- One stable sorting pass refines a `q`-pairwise list into a
`lexOf le q`-pairwise list: ties of the new key keep the prior order. -/
theorem insertionSort_pairwise_lexOf {α : Type} (le : α → α → Prop) [DecidableRel le]
    (q : α → α → Prop) (htot : ∀ a b, le a b ∨ le b a)
    (htrans : ∀ a b c, le a b → le b c → le a c)
    (l : List α) (hq : l.Pairwise q) :
    (l.insertionSort le).Pairwise (lexOf le q) := by
  induction l with
  | nil => simp [List.insertionSort, List.Pairwise.nil]
  | cons x xs ih =>
    simp only [List.insertionSort]
    refine orderedInsert_pairwise_lexOf le q htot htrans x _ (ih hq.of_cons) ?_
    intro y hy _ _
    exact List.rel_of_pairwise_cons hq ((List.mem_insertionSort le).mp hy)

/-- The composed `CHANNELS_FETCH` ranking is pairwise ordered by the full
lexicographic combination of the three keys. -/
theorem channels_fetch_order_pairwise (games : List (Game × Int)) (l : List Channel) :
    (channels_fetch_order games l).Pairwise
      (lexOf (fun a b => game_key games a ≤ game_key games b)
        (lexOf (fun a b => priority_key b ≤ priority_key a)
          (lexOf (fun a b => viewers_key b ≤ viewers_key a)
            (fun _ _ => True)))) := by
  apply insertionSort_pairwise_lexOf
  · intro a b; omega
  · intro a b c hab hbc; omega
  apply insertionSort_pairwise_lexOf
  · intro a b; omega
  · intro a b c hab hbc; omega
  apply insertionSort_pairwise_lexOf
  · intro a b; omega
  · intro a b c hab hbc; omega
  exact pairwise_trivial l

/-- C4 (amended): in the `CHANNELS_FETCH` ranking, at equal game rank a
priority channel never sits below a non-priority one; within equal priority
flag and game rank the higher viewer count ranks first; and within equal
priority flag and game rank a channel with unknown viewer count never
outranks one with viewer count zero. -/
theorem channels_fetch_order_ranking (games : List (Game × Int)) (l : List Channel)
    (i j : Fin (channels_fetch_order games l).length) (hij : i < j) :
    (game_key games ((channels_fetch_order games l).get i)
        = game_key games ((channels_fetch_order games l).get j) →
      (((channels_fetch_order games l).get j).priority →
        ((channels_fetch_order games l).get i).priority))
    ∧ (game_key games ((channels_fetch_order games l).get i)
          = game_key games ((channels_fetch_order games l).get j) →
        ((channels_fetch_order games l).get i).priority
          = ((channels_fetch_order games l).get j).priority →
        viewers_key ((channels_fetch_order games l).get j)
          ≤ viewers_key ((channels_fetch_order games l).get i))
    ∧ (game_key games ((channels_fetch_order games l).get i)
          = game_key games ((channels_fetch_order games l).get j) →
        ((channels_fetch_order games l).get i).priority
          = ((channels_fetch_order games l).get j).priority →
        ¬(((channels_fetch_order games l).get i).viewers = none
          ∧ ((channels_fetch_order games l).get j).viewers = some 0)) := by
  have hpw := channels_fetch_order_pairwise games l
  have hrel := List.pairwise_iff_get.mp hpw i j hij
  set a := (channels_fetch_order games l).get i with ha
  set b := (channels_fetch_order games l).get j with hb
  have step1 : game_key games a = game_key games b →
      lexOf (fun a b => priority_key b ≤ priority_key a)
        (lexOf (fun a b => viewers_key b ≤ viewers_key a) (fun _ _ => True)) a b := by
    intro hgk
    rcases hrel with ⟨_, hn⟩ | ⟨_, _, h⟩
    · exact absurd (le_of_eq hgk.symm) hn
    · exact h
  refine ⟨?_, ?_, ?_⟩
  · intro hgk hbp
    have hle : priority_key b ≤ priority_key a := by
      rcases step1 hgk with ⟨hle, _⟩ | ⟨hle, _, _⟩ <;> exact hle
    have hb1 : priority_key b = 1 := by simp [priority_key, hbp]
    by_contra hap
    have ha0 : priority_key a = 0 := by simp [priority_key, hap]
    omega
  · intro hgk hpr
    have step2 : lexOf (fun a b => viewers_key b ≤ viewers_key a) (fun _ _ => True) a b := by
      rcases step1 hgk with ⟨_, hn⟩ | ⟨_, _, h⟩
      · exact absurd (by simp [priority_key, hpr]) hn
      · exact h
    rcases step2 with ⟨h, _⟩ | ⟨h, _, _⟩ <;> exact h
  · intro hgk hpr ⟨hva, hvb⟩
    have step2 : lexOf (fun a b => viewers_key b ≤ viewers_key a) (fun _ _ => True) a b := by
      rcases step1 hgk with ⟨_, hn⟩ | ⟨_, _, h⟩
      · exact absurd (by simp [priority_key, hpr]) hn
      · exact h
    have hle : viewers_key b ≤ viewers_key a := by
      rcases step2 with ⟨h, _⟩ | ⟨h, _, _⟩ <;> exact h
    have h1 : viewers_key a = -1 := by unfold viewers_key; rw [hva]
    have h2 : viewers_key b = 0 := by unfold viewers_key; rw [hvb]
    omega

/-- C4 counterexample: the unqualified "unknown viewer count never outranks
viewer count 0" part fails — a channel with no recorded viewers but a lower
game rank is ranked above a zero-viewers channel with a higher game rank. -/
theorem ranking_claim_false : ¬ rankingClaim := by
  intro h
  have hinst := h [({ id := 5, name := "g5" }, 5)]
      [{ id := 1, name := "a", online := true, viewers := none,
         game := some { id := 7, name := "ga" }, drops_enabled := true, priority := false },
       { id := 2, name := "b", online := true, viewers := some 0,
         game := some { id := 5, name := "g5" }, drops_enabled := true, priority := false }]
      ⟨0, by decide⟩ ⟨1, by decide⟩ (by decide)
  exact hinst.2.2 ⟨by decide, by decide⟩

/-- Witness for C4 (amended) on a concrete two-channel list with equal game
rank and priority flag. -/
theorem channels_fetch_order_ranking_witness :
    viewers_key ((channels_fetch_order []
        [{ id := 1, name := "a", online := true, viewers := some 5,
           game := none, drops_enabled := true, priority := false },
         { id := 2, name := "b", online := true, viewers := some 3,
           game := none, drops_enabled := true, priority := false }]).get ⟨1, by decide⟩)
      ≤ viewers_key ((channels_fetch_order []
        [{ id := 1, name := "a", online := true, viewers := some 5,
           game := none, drops_enabled := true, priority := false },
         { id := 2, name := "b", online := true, viewers := some 3,
           game := none, drops_enabled := true, priority := false }]).get ⟨0, by decide⟩) :=
  (channels_fetch_order_ranking []
      [{ id := 1, name := "a", online := true, viewers := some 5,
         game := none, drops_enabled := true, priority := false },
       { id := 2, name := "b", online := true, viewers := some 3,
         game := none, drops_enabled := true, priority := false }]
      ⟨0, by decide⟩ ⟨1, by decide⟩ (by decide)).2.1 (by decide) (by decide)

/-- C5: with `N` ranked channels and a topic budget of
`B = MAX_WEBSOCKETS * WS_TOPICS_LIMIT - 2`, exactly `min N B` channels are
retained, the retained list is precisely the length-`min N B` prefix of the
ranking, and every truncated channel has its stream-state topic removed. -/
theorem channels_fetch_trim_spec (MAX_WEBSOCKETS WS_TOPICS_LIMIT : Nat)
    (ordered_channels : List Channel)
    (_hbudget : 2 ≤ MAX_WEBSOCKETS * WS_TOPICS_LIMIT) :
    (channels_fetch_trim MAX_WEBSOCKETS WS_TOPICS_LIMIT ordered_channels).1.length
        = min ordered_channels.length (MAX_WEBSOCKETS * WS_TOPICS_LIMIT - 2)
    ∧ (channels_fetch_trim MAX_WEBSOCKETS WS_TOPICS_LIMIT ordered_channels).1
        = ordered_channels.take
            (min ordered_channels.length (MAX_WEBSOCKETS * WS_TOPICS_LIMIT - 2))
    ∧ ∀ c ∈ ordered_channels,
        c ∉ (channels_fetch_trim MAX_WEBSOCKETS WS_TOPICS_LIMIT ordered_channels).1 →
        c.id ∈ (channels_fetch_trim MAX_WEBSOCKETS WS_TOPICS_LIMIT ordered_channels).2 := by
  refine ⟨?_, ?_, ?_⟩
  · exact (List.length_take _ _).trans (Nat.min_comm _ _)
  · rcases Nat.le_total (MAX_WEBSOCKETS * WS_TOPICS_LIMIT - 2) ordered_channels.length
      with hle | hle
    · rw [Nat.min_eq_right hle]
      rfl
    · rw [Nat.min_eq_left hle]
      show ordered_channels.take (MAX_WEBSOCKETS * WS_TOPICS_LIMIT - 2) = _
      rw [List.take_of_length_le hle, List.take_length]
  · intro c hc hnot
    rw [← List.take_append_drop (MAX_WEBSOCKETS * WS_TOPICS_LIMIT - 2) ordered_channels]
      at hc
    rcases List.mem_append.mp hc with h1 | h2
    · exact absurd h1 hnot
    · exact List.mem_map.mpr ⟨c, h2, rfl⟩

/-- Witness for C5: budget 1 retains exactly `min 2 1 = 1` of two channels. -/
theorem channels_fetch_trim_spec_witness :
    (channels_fetch_trim 1 3
        [{ id := 1, name := "a", online := true, viewers := some 5,
           game := none, drops_enabled := true, priority := false },
         { id := 2, name := "b", online := true, viewers := some 3,
           game := none, drops_enabled := true, priority := false }]).1.length
      = min
          ([{ id := 1, name := "a", online := true, viewers := some 5,
              game := none, drops_enabled := true, priority := false },
            { id := 2, name := "b", online := true, viewers := some 3,
              game := none, drops_enabled := true, priority := false }] : List Channel).length
          (1 * 3 - 2) :=
  (channels_fetch_trim_spec 1 3 _ (by decide)).1

/-- C6: the committed channel is the first watchable candidate in the order
selected-channel, watched-channel, then the active set re-sorted by game
rank; with no watchable candidate the machine goes `IDLE` (flag left set);
otherwise the candidate is watched and the pending flag cleared; the GUI
selection is consumed exactly when present; and the re-sorted scan order is a
permutation of the active set, ordered by game rank with ties keeping their
prior relative order. -/
theorem channel_switch_spec (games : List (Game × Int)) (inventory : List DropsCampaign)
    (selected_channel watching_channel : Option Channel) (channels : List Channel) :
    (channel_switch games inventory selected_channel watching_channel channels).watched
        = ((match selected_channel with | some c => [c] | none => [])
            ++ (match watching_channel with | some c => [c] | none => [])
            ++ pySortKey (game_key games) channels).find?
            (fun c => can_watch games inventory c)
    ∧ ((channel_switch games inventory selected_channel watching_channel channels).watched
          = none →
        (channel_switch games inventory selected_channel watching_channel
            channels).next_state = State.IDLE
        ∧ (channel_switch games inventory selected_channel watching_channel
            channels).flag_cleared = false)
    ∧ (∀ c,
        (channel_switch games inventory selected_channel watching_channel channels).watched
            = some c →
        can_watch games inventory c = true
        ∧ (channel_switch games inventory selected_channel watching_channel
            channels).flag_cleared = true
        ∧ (channel_switch games inventory selected_channel watching_channel
            channels).next_state = State.CHANNEL_SWITCH)
    ∧ (channel_switch games inventory selected_channel watching_channel
        channels).selection_cleared = selected_channel.isSome
    ∧ (pySortKey (game_key games) channels).Perm channels
    ∧ ∀ q : Channel → Channel → Prop, channels.Pairwise q →
        (pySortKey (game_key games) channels).Pairwise
          (lexOf (fun a b => game_key games a ≤ game_key games b) q) := by
  have hcases :
      (∃ c, (channel_switch games inventory selected_channel watching_channel channels)
            = { watched := some c, selection_cleared := selected_channel.isSome,
                next_state := State.CHANNEL_SWITCH, flag_cleared := true }
          ∧ can_watch games inventory c = true)
      ∨ ((channel_switch games inventory selected_channel watching_channel channels)
            = { watched := none, selection_cleared := selected_channel.isSome,
                next_state := State.IDLE, flag_cleared := false }
          ∧ ((match selected_channel with | some c => [c] | none => [])
              ++ (match watching_channel with | some c => [c] | none => [])
              ++ pySortKey (game_key games) channels).find?
              (fun c => can_watch games inventory c) = none) := by
    unfold channel_switch
    cases h1 : ((match selected_channel with | some c => [c] | none => [])
        ++ (match watching_channel with | some c => [c] | none => [])).find?
        (fun c => can_watch games inventory c) with
    | some c =>
        refine Or.inl ⟨c, ?_, List.find?_some h1⟩
        simp [h1]
    | none =>
        cases h2 : (pySortKey (game_key games) channels).find?
            (fun c => can_watch games inventory c) with
        | some c =>
            refine Or.inl ⟨c, ?_, List.find?_some h2⟩
            simp [h1, h2]
        | none =>
            refine Or.inr ⟨?_, ?_⟩
            · simp [h1, h2]
            · rw [List.find?_append, h1, h2]
              rfl
  refine ⟨?_, ?_, ?_, ?_, ?_, ?_⟩
  · rw [List.find?_append]
    unfold channel_switch
    cases h1 : ((match selected_channel with | some c => [c] | none => [])
        ++ (match watching_channel with | some c => [c] | none => [])).find?
        (fun c => can_watch games inventory c) with
    | some c => simp [h1]
    | none =>
        cases h2 : (pySortKey (game_key games) channels).find?
            (fun c => can_watch games inventory c) with
        | some c => simp [h1, h2]
        | none => simp [h1, h2]
  · intro hnone
    rcases hcases with ⟨c, heq, _⟩ | ⟨heq, _⟩
    · rw [heq] at hnone
      exact absurd hnone (by simp)
    · rw [heq]
      exact ⟨rfl, rfl⟩
  · intro c hsome
    rcases hcases with ⟨c', heq, hcw⟩ | ⟨heq, _⟩
    · rw [heq] at hsome
      have : c' = c := by simpa using hsome
      subst this
      rw [heq]
      exact ⟨hcw, rfl, rfl⟩
    · rw [heq] at hsome
      exact absurd hsome (by simp)
  · rcases hcases with ⟨c, heq, _⟩ | ⟨heq, _⟩ <;> rw [heq]
  · exact List.perm_insertionSort _ _
  · intro q hq
    apply insertionSort_pairwise_lexOf
    · intro a b; omega
    · intro a b c hab hbc; omega
    exact hq

/-- Witness for C6: a single watchable channel gets committed, with the flag
cleared. -/
theorem channel_switch_spec_witness :
    can_watch [({ id := 1, name := "g" }, 0)]
      [{ id := "camp", game := { id := 1, name := "g" }, ends_at := 0,
         upcoming := false, allowed_channels := [], drops := [],
         can_earn := fun _ => true }]
      { id := 9, name := "w", online := true, viewers := some 1,
        game := some { id := 1, name := "g" }, drops_enabled := true,
        priority := false } = true
    ∧ (channel_switch [({ id := 1, name := "g" }, 0)]
        [{ id := "camp", game := { id := 1, name := "g" }, ends_at := 0,
           upcoming := false, allowed_channels := [], drops := [],
           can_earn := fun _ => true }]
        none none
        [{ id := 9, name := "w", online := true, viewers := some 1,
           game := some { id := 1, name := "g" }, drops_enabled := true,
           priority := false }]).flag_cleared = true
    ∧ (channel_switch [({ id := 1, name := "g" }, 0)]
        [{ id := "camp", game := { id := 1, name := "g" }, ends_at := 0,
           upcoming := false, allowed_channels := [], drops := [],
           can_earn := fun _ => true }]
        none none
        [{ id := 9, name := "w", online := true, viewers := some 1,
           game := some { id := 1, name := "g" }, drops_enabled := true,
           priority := false }]).next_state = State.CHANNEL_SWITCH :=
  (channel_switch_spec [({ id := 1, name := "g" }, 0)]
      [{ id := "camp", game := { id := 1, name := "g" }, ends_at := 0,
         upcoming := false, allowed_channels := [], drops := [],
         can_earn := fun _ => true }]
      none none
      [{ id := 9, name := "w", online := true, viewers := some 1,
         game := some { id := 1, name := "g" }, drops_enabled := true,
         priority := false }]).2.2.1
    { id := 9, name := "w", online := true, viewers := some 1,
      game := some { id := 1, name := "g" }, drops_enabled := true,
      priority := false } rfl

/-- A single stable sorting pass is pairwise ordered by its key. -/
theorem pySortKey_pairwise {α : Type} (k : α → Int) (l : List α) :
    (pySortKey k l).Pairwise (fun a b => k a ≤ k b) := by
  have h := insertionSort_pairwise_lexOf (fun a b => k a ≤ k b) (fun _ _ => True)
    (fun a b => by omega) (fun a b c hab hbc => by omega) l (pairwise_trivial l)
  exact h.imp (by rintro a b (⟨hab, _⟩ | ⟨hab, _, _⟩) <;> exact hab)

/-- `dictInsert` on a fresh key appends the pair. -/
theorem dictInsert_of_fresh (d : List (String × AvailableData)) (k : String)
    (v : AvailableData) (h : ∀ p ∈ d, p.1 ≠ k) :
    dictInsert d k v = d ++ [(k, v)] := by
  have hcond : d.any (fun p => p.1 == k) = false := by
    rw [List.any_eq_false]
    intro p hp
    simpa using h p hp
  simp [dictInsert, hcond]

/-- The dict-comprehension fold, on catalog entries with pairwise distinct
ids that are also fresh for the accumulator, appends exactly the kept
entries in order. -/
theorem availableDict_foldl_eq (keep : AvailableData → Bool)
    (rest : List AvailableData) (acc : List (String × AvailableData))
    (hnd : (rest.map (fun c => c.id)).Nodup)
    (hdisj : ∀ c ∈ rest, ∀ p ∈ acc, p.1 ≠ c.id) :
    rest.foldl (fun d c => if keep c then dictInsert d c.id c else d) acc
      = acc ++ (rest.filter keep).map (fun c => (c.id, c)) := by
  induction rest generalizing acc with
  | nil => simp
  | cons x t ih =>
    have hnd' : (t.map (fun c => c.id)).Nodup := by
      rw [List.map_cons, List.nodup_cons] at hnd
      exact hnd.2
    have hxid : x.id ∉ t.map (fun c => c.id) := by
      rw [List.map_cons, List.nodup_cons] at hnd
      exact hnd.1
    simp only [List.foldl_cons]
    by_cases hk : keep x = true
    · rw [if_pos hk, dictInsert_of_fresh _ _ _
        (fun p hp => hdisj x (List.mem_cons_self x t) p hp)]
      rw [ih (acc ++ [(x.id, x)]) hnd' ?_]
      · simp [List.filter_cons, hk]
      · intro c hc p hp
        rcases List.mem_append.mp hp with hpa | hpx
        · exact hdisj c (List.mem_cons_of_mem x hc) p hpa
        · have hpb : p = (x.id, x) := by simpa using hpx
          subst hpb
          intro heq
          apply hxid
          have hxc : x.id = c.id := heq
          rw [hxc]
          exact List.mem_map.mpr ⟨c, hc, rfl⟩
    · rw [if_neg hk, ih acc hnd'
        (fun c hc p hp => hdisj c (List.mem_cons_of_mem x hc) p hp)]
      simp [List.filter_cons, hk]

/-- With pairwise distinct catalog ids, the dict comprehension is the
filtered catalog keyed by id, in catalog order. -/
theorem availableDict_eq (available_list : List AvailableData)
    (keep : AvailableData → Bool)
    (h : (available_list.map (fun c => c.id)).Nodup) :
    availableDict available_list keep
      = (available_list.filter keep).map (fun c => (c.id, c)) := by
  unfold availableDict
  rw [availableDict_foldl_eq keep available_list [] h (by simp)]
  simp

/-- C7: the refreshed inventory is sorted ascending by campaign end time; it
is, as a multiset, exactly the in-progress campaigns together with the
detail-fetched qualifying catalog entries (ACTIVE or UPCOMING, account
connected, not already in progress, still progressable); and every member
either is an in-progress campaign or stems from a catalog entry whose id is
not among the in-progress ids — the catalog pass never duplicates an
in-progress campaign. -/
theorem fetch_inventory_spec (ongoing_campaigns : List DropsCampaign)
    (available_list : List AvailableData)
    (fetch_campaign : String → DropsCampaign)
    (h : (available_list.map (fun c => c.id)).Nodup) :
    (fetch_inventory ongoing_campaigns available_list fetch_campaign).Pairwise
        (fun c1 c2 => c1.ends_at ≤ c2.ends_at)
    ∧ (fetch_inventory ongoing_campaigns available_list fetch_campaign).Perm
        (ongoing_campaigns
          ++ ((available_list.filter
                (availableKeep (ongoing_campaigns.map (fun c => c.id)))).map
              (fun c => fetch_campaign c.id)).filter
              (fun campaign => campaign.can_earn none))
    ∧ ∀ campaign ∈ fetch_inventory ongoing_campaigns available_list fetch_campaign,
        campaign ∈ ongoing_campaigns
        ∨ ∃ ad ∈ available_list,
            availableKeep (ongoing_campaigns.map (fun c => c.id)) ad = true
            ∧ campaign = fetch_campaign ad.id
            ∧ ad.id ∉ ongoing_campaigns.map (fun c => c.id) := by
  have hdict := availableDict_eq available_list
    (availableKeep (ongoing_campaigns.map (fun c => c.id))) h
  refine ⟨pySortKey_pairwise _ _, ?_, ?_⟩
  · unfold fetch_inventory
    dsimp only
    rw [hdict, List.map_map]
    exact List.perm_insertionSort _ _
  · intro campaign hc
    unfold fetch_inventory at hc
    dsimp only at hc
    rw [hdict, List.map_map] at hc
    have hmem := (List.mem_insertionSort _).mp hc
    rcases List.mem_append.mp hmem with hg | ha
    · exact Or.inl hg
    · right
      rcases List.mem_filter.mp ha with ⟨hmap, _⟩
      rcases List.mem_map.mp hmap with ⟨ad, hadf, hadc⟩
      rcases List.mem_filter.mp hadf with ⟨hadl, hkeep⟩
      refine ⟨ad, hadl, hkeep, hadc.symm, ?_⟩
      have hnc : (ongoing_campaigns.map (fun c => c.id)).contains ad.id = false := by
        have := hkeep
        unfold availableKeep at this
        rcases Bool.and_eq_true_iff.mp this with ⟨_, h3⟩
        simpa using h3
      intro hmm
      have hcontains : (ongoing_campaigns.map (fun c => c.id)).contains ad.id = true :=
        List.elem_iff.mpr hmm
      rw [hcontains] at hnc
      exact Bool.noConfusion hnc

/-- Witness for C7 on a one-campaign inventory and a one-entry catalog. -/
theorem fetch_inventory_spec_witness :
    ((fetch_inventory
        [{ id := "X", game := { id := 1, name := "g" }, ends_at := 9,
           upcoming := false, allowed_channels := [], drops := [],
           can_earn := fun _ => true }]
        [{ id := "Y", status := "ACTIVE", isAccountConnected := true }]
        (fun i => { id := i, game := { id := 2, name := "h" }, ends_at := 3,
                    upcoming := false, allowed_channels := [], drops := [],
                    can_earn := fun _ => true })).Pairwise
      (fun c1 c2 => c1.ends_at ≤ c2.ends_at)) :=
  (fetch_inventory_spec
      [{ id := "X", game := { id := 1, name := "g" }, ends_at := 9,
         upcoming := false, allowed_channels := [], drops := [],
         can_earn := fun _ => true }]
      [{ id := "Y", status := "ACTIVE", isAccountConnected := true }]
      (fun i => { id := i, game := { id := 2, name := "h" }, ends_at := 3,
                  upcoming := false, allowed_channels := [], drops := [],
                  can_earn := fun _ => true })
      (by simp)).1

/-- C8 counterexample: a validation status other than `200`/`401` is not by
itself fatal — with statuses `500` then `200`, `check_login` succeeds on the
second attempt instead of failing. -/
theorem check_login_claim_false : ¬ checkLoginClaim := by
  intro h
  rcases h (fun i => if i = 0 then 500 else 200) (fun _ => "t") (some "c") none
      (by decide) (by decide) with ⟨n, hn⟩
  have hval : check_login (fun i => if i = 0 then 500 else 200) (fun _ => "t")
      (some "c") none = CheckLoginOutcome.success "c" 0 := rfl
  rw [hval] at hn
  exact CheckLoginOutcome.noConfusion hn

/-- C8 (amended): a `200` on either of the two validation attempts succeeds;
two non-`200` statuses exhaust the budget and raise the fatal
login-verification failure; a `401` on the first attempt clears the cookie,
so the second attempt re-runs the whole login flow and validates its fresh
token; while a non-`401` non-success status keeps the cookie and consumes an
attempt, the second attempt revalidating the same cached token. -/
theorem check_login_spec (status : Nat → Nat) (login_token : Nat → String)
    (cookie : Option String) (access_token : Option String) :
    (status 0 = 200 →
      isSuccess (check_login status login_token cookie access_token) = true)
    ∧ (status 0 ≠ 200 → status 1 = 200 →
      isSuccess (check_login status login_token cookie access_token) = true)
    ∧ (status 0 ≠ 200 → status 1 ≠ 200 →
      isSuccess (check_login status login_token cookie access_token) = false)
    ∧ (∀ c, cookie = some c → status 0 = 401 → status 1 = 200 →
      check_login status login_token cookie access_token
        = CheckLoginOutcome.success (login_token 0) 1)
    ∧ (∀ c t, cookie = some c → access_token = some t →
        status 0 ≠ 401 → status 0 ≠ 200 → status 1 = 200 →
      check_login status login_token cookie access_token
        = CheckLoginOutcome.success t 0) := by
  refine ⟨?_, ?_, ?_, ?_, ?_⟩
  · intro h0
    rcases cookie with _ | c <;>
      rcases access_token with _ | t <;>
        simp [check_login, check_login_loop, isSuccess, h0]
  · intro h0 h1
    by_cases h401 : status 0 = 401 <;>
      rcases cookie with _ | c <;>
        rcases access_token with _ | t <;>
          simp [check_login, check_login_loop, isSuccess, h0, h401, h1]
  · intro h0 h1
    by_cases h401a : status 0 = 401 <;>
      by_cases h401b : status 1 = 401 <;>
        rcases cookie with _ | c <;>
          rcases access_token with _ | t <;>
            simp [check_login, check_login_loop, isSuccess, h0, h401a, h401b, h1]
  · intro c hc h401 h1
    subst hc
    rcases access_token with _ | t <;>
      simp [check_login, check_login_loop, h401, h1]
  · intro c t hc ht h401 h0 h1
    subst hc
    subst ht
    simp [check_login, check_login_loop, h401, h0, h1]

/-- Witness for C8 on concrete statuses `401` then `200`: the fresh login's
token is the one validated. -/
theorem check_login_spec_witness :
    check_login (fun i => if i = 0 then 401 else 200) (fun _ => "fresh")
      (some "c") none = CheckLoginOutcome.success "fresh" 1 :=
  (check_login_spec (fun i => if i = 0 then 401 else 200) (fun _ => "fresh")
      (some "c") none).2.2.2.1 "c" rfl (by decide) (by decide)

/-- Running the request loop through `j` consecutive connection errors
accumulates one back-off sleep per consumed attempt and carries the last
error as the cause. -/
theorem request_loop_conn_run (outcomes : Nat → ReqOutcome) (attempts : Nat)
    (es : Nat → Nat) :
    ∀ (j remaining : Nat) (cause : Option Nat) (sleeps : List ℚ),
    remaining ≤ attempts → j < remaining →
    (∀ i, attempts - remaining ≤ i → i < attempts - remaining + j →
      outcomes i = ReqOutcome.connError (es i)) →
    request_loop outcomes attempts remaining cause sleeps
      = request_loop outcomes attempts (remaining - j)
          (if j = 0 then cause else some (es (attempts - remaining + j - 1)))
          (sleeps ++ ((List.range' (attempts - remaining) j).map
            (fun i : Nat => (1 / 10 : ℚ) * (i : ℚ)))) := by
  intro j
  induction j with
  | zero =>
    intro remaining cause sleeps _ _ _
    simp
  | succ jj ih =>
    intro remaining cause sleeps hra hjr hconn
    obtain ⟨rr, rfl⟩ : ∃ rr, remaining = rr + 1 := ⟨remaining - 1, by omega⟩
    have hco : outcomes (attempts - (rr + 1))
        = ReqOutcome.connError (es (attempts - (rr + 1))) :=
      hconn _ (by omega) (by omega)
    have hstep : request_loop outcomes attempts (rr + 1) cause sleeps
        = request_loop outcomes attempts rr (some (es (attempts - (rr + 1))))
            (sleeps ++ [(1 / 10 : ℚ) * ((attempts - (rr + 1) : Nat) : ℚ)]) := by
      simp only [request_loop]
      rw [hco]
      rw [if_pos (by omega : attempts - (rr + 1) < attempts - 1)]
    rw [hstep,
      ih rr (some (es (attempts - (rr + 1)))) _ (by omega) (by omega)
        (fun i h1 h2 => hconn i (by omega) (by omega))]
    congr 1
    · omega
    · rw [if_neg (Nat.succ_ne_zero jj)]
      by_cases hjj : jj = 0
      · subst hjj
        rw [if_pos rfl]
        exact congrArg (fun n => some (es n)) (by omega)
      · rw [if_neg hjj]
        exact congrArg (fun n => some (es n)) (by omega)
    · rw [List.append_assoc]
      congr 1
      have hr : List.range' (attempts - (rr + 1)) (jj + 1)
          = (attempts - (rr + 1)) :: List.range' (attempts - (rr + 1) + 1) jj := rfl
      rw [hr, List.map_cons, List.singleton_append]
      have hidx : attempts - rr = attempts - (rr + 1) + 1 := by omega
      rw [hidx]

/-- C9: with the first `k` attempts hitting connection errors — each followed
by a `0.1 * attempt` back-off sleep while attempts remain — exhausting the
whole budget raises the fatal request error carrying the last connection
error as its cause, a success on attempt `k` returns that response, and a
non-connection failure on attempt `k` propagates immediately, in each case
after exactly the `k` linearly growing sleeps. -/
theorem request_spec (outcomes : Nat → ReqOutcome) (attempts k : Nat) (es : Nat → Nat)
    (hconn : ∀ i, i < k → outcomes i = ReqOutcome.connError (es i)) :
    (k = attempts → 0 < attempts →
      request outcomes attempts
        = ReqResult.requestError (some (es (attempts - 1)))
            ((List.range (attempts - 1)).map (fun i : Nat => (1 / 10 : ℚ) * (i : ℚ))))
    ∧ (∀ r, k < attempts → outcomes k = ReqOutcome.success r →
        request outcomes attempts
          = ReqResult.success r ((List.range k).map (fun i : Nat => (1 / 10 : ℚ) * (i : ℚ))))
    ∧ (∀ e, k < attempts → outcomes k = ReqOutcome.otherError e →
        request outcomes attempts
          = ReqResult.otherRaised e
              ((List.range k).map (fun i : Nat => (1 / 10 : ℚ) * (i : ℚ)))) := by
  refine ⟨?_, ?_, ?_⟩
  · intro hk hpos
    subst hk
    unfold request
    rw [request_loop_conn_run outcomes k es (k - 1) k none [] (le_refl k) (by omega)
      (fun i h1 h2 => hconn i (by omega))]
    have h1 : k - (k - 1) = 1 := by omega
    rw [h1]
    simp only [request_loop]
    rw [hconn (k - 1) (by omega)]
    rw [if_neg (by omega : ¬ k - 1 < k - 1)]
    simp only [request_loop]
    rw [List.range_eq_range']
    simp
  · intro r hk hr
    unfold request
    rw [request_loop_conn_run outcomes attempts es k attempts none [] (le_refl attempts)
      (by omega) (fun i h1 h2 => hconn i (by omega))]
    obtain ⟨m, hm⟩ : ∃ m, attempts - k = m + 1 := ⟨attempts - k - 1, by omega⟩
    rw [hm]
    simp only [request_loop]
    have hat : attempts - (m + 1) = k := by omega
    rw [hat, hr]
    rw [List.range_eq_range']
    simp
  · intro e hk he
    unfold request
    rw [request_loop_conn_run outcomes attempts es k attempts none [] (le_refl attempts)
      (by omega) (fun i h1 h2 => hconn i (by omega))]
    obtain ⟨m, hm⟩ : ∃ m, attempts - k = m + 1 := ⟨attempts - k - 1, by omega⟩
    rw [hm]
    simp only [request_loop]
    have hat : attempts - (m + 1) = k := by omega
    rw [hat, he]
    rw [List.range_eq_range']
    simp

/-- Witness for C9: one connection error, then a success on attempt 1, after
a single zero-length sleep. -/
theorem request_spec_witness :
    request (fun i => if i = 0 then ReqOutcome.connError 7 else ReqOutcome.success 42) 5
      = ReqResult.success 42
          ((List.range 1).map (fun i : Nat => (1 / 10 : ℚ) * (i : ℚ))) :=
  (request_spec (fun i => if i = 0 then ReqOutcome.connError 7 else ReqOutcome.success 42)
      5 1 (fun _ => 7)
      (by
        intro i hi
        have h0 : i = 0 := by omega
        subst h0
        rfl)).2.1 42 (by omega) rfl

/-- The two accumulating candidate lists of `get_active_drop`'s campaign
loop, expressed as filters of the inventory. -/
theorem get_active_drop_foldl (games : List (Game × Int)) (wc : Option Channel)
    (game : Option Game) (inventory : List DropsCampaign) :
    ∀ acc : List TimedDrop × List TimedDrop,
    inventory.foldl
      (fun (acc : List TimedDrop × List TimedDrop) campaign =>
        if gamesContains games campaign.game && campaign.can_earn wc then
          (acc.1 ++ campaign.drops.filter (fun d => d.can_earn wc),
           if (match game with
               | some g => campaign.game == g
               | none => false)
           then acc.2 ++ campaign.drops.filter (fun d => d.can_earn wc)
           else acc.2)
        else acc) acc
      = (acc.1 ++ active_drop_candidates games inventory wc,
         acc.2 ++ active_drop_strict games inventory wc game) := by
  induction inventory with
  | nil =>
    intro acc
    simp [active_drop_candidates, active_drop_strict]
  | cons c t ih =>
    intro acc
    simp only [List.foldl_cons]
    rw [ih]
    cases game with
    | none =>
        by_cases h1 : (gamesContains games c.game && c.can_earn wc) = true <;>
          simp [active_drop_candidates, active_drop_strict, List.filter_cons, h1,
            List.append_assoc]
    | some g =>
        by_cases h1 : (gamesContains games c.game && c.can_earn wc) = true <;>
          by_cases h2 : (c.game == g) = true <;>
            simp [active_drop_candidates, active_drop_strict, List.filter_cons, h1, h2,
              List.append_assoc]

/-- The head of one stable key-sorting pass is a member with a minimal key. -/
theorem pySortKey_head_min {α : Type} (k : α → Int) (l : List α) (d : α)
    (h : (pySortKey k l).head? = some d) :
    d ∈ l ∧ ∀ x ∈ l, k d ≤ k x := by
  have hpw := pySortKey_pairwise k l
  cases hs : pySortKey k l with
  | nil =>
    rw [hs] at h
    cases h
  | cons a t =>
    rw [hs] at h hpw
    have had : a = d := by simpa using h
    subst had
    constructor
    · have hmem : a ∈ pySortKey k l := by
        rw [hs]
        exact List.mem_cons_self a t
      exact (List.mem_insertionSort _).mp hmem
    · intro x hx
      have hxs : x ∈ pySortKey k l := (List.mem_insertionSort _).mpr hx
      rw [hs] at hxs
      rcases List.mem_cons.mp hxs with rfl | hxt
      · exact le_refl _
      · exact List.rel_of_pairwise_cons hpw hxt

/-- C10: with no eligible games `get_active_drop` returns nothing; otherwise
it returns nothing exactly when the candidate pool (strict when non-empty,
all candidates otherwise) is empty, and a returned drop is a pool member
with the fewest remaining minutes. -/
theorem get_active_drop_spec (games : List (Game × Int)) (inventory : List DropsCampaign)
    (watching_value channel : Option Channel) :
    (games.isEmpty = true →
      get_active_drop games inventory watching_value channel = none)
    ∧ (games.isEmpty = false →
        ((get_active_drop games inventory watching_value channel = none
            ↔ active_drop_pool games inventory (get_with_default watching_value channel)
                (channel_game (get_with_default watching_value channel)) = [])
         ∧ ∀ d, get_active_drop games inventory watching_value channel = some d →
             d ∈ active_drop_pool games inventory (get_with_default watching_value channel)
                 (channel_game (get_with_default watching_value channel))
             ∧ ∀ d2 ∈ active_drop_pool games inventory
                 (get_with_default watching_value channel)
                 (channel_game (get_with_default watching_value channel)),
                 d.remaining_minutes ≤ d2.remaining_minutes)) := by
  constructor
  · intro h
    simp [get_active_drop, h]
  · intro h
    have hval : get_active_drop games inventory watching_value channel
        = (if !(active_drop_pool games inventory (get_with_default watching_value channel)
              (channel_game (get_with_default watching_value channel))).isEmpty
           then (pySortKey (fun d => (d.remaining_minutes : Int))
              (active_drop_pool games inventory (get_with_default watching_value channel)
                (channel_game (get_with_default watching_value channel)))).head?
           else none) := by
      unfold get_active_drop
      rw [if_neg (by simp [h])]
      dsimp only
      rw [get_active_drop_foldl games (get_with_default watching_value channel)
        (channel_game (get_with_default watching_value channel)) inventory ([], [])]
      simp only [List.nil_append]
      unfold active_drop_pool
      by_cases hstrict : (active_drop_strict games inventory
          (get_with_default watching_value channel)
          (channel_game (get_with_default watching_value channel))).isEmpty = true
      · simp [hstrict]
      · simp only [Bool.not_eq_true] at hstrict
        simp [hstrict]
    rw [hval]
    by_cases hp : (active_drop_pool games inventory (get_with_default watching_value channel)
        (channel_game (get_with_default watching_value channel))).isEmpty = true
    · rw [if_neg (by simp [hp])]
      constructor
      · simp [List.isEmpty_iff.mp hp]
      · intro d hd
        cases hd
    · rw [if_pos (by simp [hp])]
      simp only [Bool.not_eq_true] at hp
      constructor
      · constructor
        · intro hnone
          rw [List.head?_eq_none_iff] at hnone
          have hnone2 : List.insertionSort
              (fun a b : TimedDrop => (a.remaining_minutes : Int) ≤ (b.remaining_minutes : Int))
              (active_drop_pool games inventory (get_with_default watching_value channel)
                (channel_game (get_with_default watching_value channel))) = [] := hnone
          have hlen := (List.perm_insertionSort
            (fun a b : TimedDrop => (a.remaining_minutes : Int) ≤ (b.remaining_minutes : Int))
            (active_drop_pool games inventory (get_with_default watching_value channel)
              (channel_game (get_with_default watching_value channel)))).length_eq
          rw [hnone2] at hlen
          simp only [List.length_nil] at hlen
          exact List.length_eq_zero.mp hlen.symm
        · intro hempty
          rw [hempty] at hp
          simp at hp
      · intro d hd
        have hmin := pySortKey_head_min (fun d : TimedDrop => (d.remaining_minutes : Int))
          (active_drop_pool games inventory (get_with_default watching_value channel)
            (channel_game (get_with_default watching_value channel))) d hd
        refine ⟨hmin.1, ?_⟩
        intro d2 hd2
        have h3 : (d.remaining_minutes : Int) ≤ (d2.remaining_minutes : Int) :=
          hmin.2 d2 hd2
        exact_mod_cast h3

/-- Witness for C10 on a two-drop campaign: the 5-minute drop is the pool
minimum. -/
theorem get_active_drop_spec_witness :
    ({ id := "d2", current_minutes := 0, remaining_minutes := 5,
       can_earn := fun _ => true } : TimedDrop)
      ∈ active_drop_pool [({ id := 1, name := "g" }, 0)]
          [{ id := "camp", game := { id := 1, name := "g" }, ends_at := 0,
             upcoming := false, allowed_channels := [],
             drops := [{ id := "d1", current_minutes := 0, remaining_minutes := 10,
                         can_earn := fun _ => true },
                       { id := "d2", current_minutes := 0, remaining_minutes := 5,
                         can_earn := fun _ => true }],
             can_earn := fun _ => true }]
          (get_with_default
            (some { id := 9, name := "w", online := true, viewers := some 1,
                    game := some { id := 1, name := "g" }, drops_enabled := true,
                    priority := false }) none)
          (channel_game (get_with_default
            (some { id := 9, name := "w", online := true, viewers := some 1,
                    game := some { id := 1, name := "g" }, drops_enabled := true,
                    priority := false }) none)) :=
  ((get_active_drop_spec [({ id := 1, name := "g" }, 0)]
      [{ id := "camp", game := { id := 1, name := "g" }, ends_at := 0,
         upcoming := false, allowed_channels := [],
         drops := [{ id := "d1", current_minutes := 0, remaining_minutes := 10,
                     can_earn := fun _ => true },
                   { id := "d2", current_minutes := 0, remaining_minutes := 5,
                     can_earn := fun _ => true }],
         can_earn := fun _ => true }]
      (some { id := 9, name := "w", online := true, viewers := some 1,
              game := some { id := 1, name := "g" }, drops_enabled := true,
              priority := false }) none).2 rfl).2
    { id := "d2", current_minutes := 0, remaining_minutes := 5,
      can_earn := fun _ => true } rfl |>.1

/-- C2 counterexample: on a rendezvous timeout the watch loop does not issue
the current-drop query at all (`use_active` is set in the `TimeoutError`
handler, which bypasses the GQL branch), refuting the claimed
timeout-then-poll ladder. -/
theorem watch_claim_false : ¬ watchClaim := by
  intro h
  have hch := (h [] [] []
      { id := 1, name := "c", online := true, viewers := none, game := none,
        drops_enabled := true, priority := false } none).2.1
  have hval : (watch_step [] [] []
      { id := 1, name := "c", online := true, viewers := none, game := none,
        drops_enabled := true, priority := false } Rendezvous.timeout none).2 = false := rfl
  rw [hval] at hch
  exact Bool.noConfusion hch

/-- C2 (amended): a positive rendezvous resolution means the push handler
already applied the event's value (tracked drop earnable on the watched
channel) and nothing else runs; a timeout skips the current-drop query and
bumps the best local candidate directly; a negative resolution issues the
query — its value is applied only for a tracked drop earnable on the watched
channel, a null session applies nothing, and any other answer falls back to
the local bump; and an event with no pending rendezvous is ignored. -/
theorem watch_step_spec (drops : List (String × TimedDrop)) (games : List (Game × Int))
    (inventory : List DropsCampaign) (channel : Channel) (poll : Option DropData) :
    watch_step drops games inventory channel (Rendezvous.resolved true) poll
        = (WatchAction.push_handled, false)
    ∧ ((watch_step drops games inventory channel Rendezvous.timeout poll).2 = false
        ∧ ((∃ d, get_active_drop games inventory (some channel) (some channel) = some d
              ∧ (watch_step drops games inventory channel Rendezvous.timeout poll).1
                  = WatchAction.bumped d.id)
           ∨ (get_active_drop games inventory (some channel) (some channel) = none
              ∧ (watch_step drops games inventory channel Rendezvous.timeout poll).1
                  = WatchAction.bump_failed)))
    ∧ (watch_step drops games inventory channel (Rendezvous.resolved false) poll).2 = true
    ∧ (poll = none →
        (watch_step drops games inventory channel (Rendezvous.resolved false) poll).1
            = WatchAction.no_update)
    ∧ (∀ dd drop, poll = some dd → drops_get drops dd.dropID = some drop →
        drop.can_earn (some channel) = true →
        (watch_step drops games inventory channel (Rendezvous.resolved false) poll).1
            = WatchAction.poll_applied dd.dropID dd.currentMinutesWatched)
    ∧ (∀ dd, poll = some dd →
        (drops_get drops dd.dropID = none
          ∨ ∃ drop, drops_get drops dd.dropID = some drop
              ∧ drop.can_earn (some channel) = false) →
        ((∃ d, get_active_drop games inventory (some channel) (some channel) = some d
            ∧ (watch_step drops games inventory channel (Rendezvous.resolved false) poll).1
                = WatchAction.bumped d.id)
         ∨ (get_active_drop games inventory (some channel) (some channel) = none
            ∧ (watch_step drops games inventory channel (Rendezvous.resolved false) poll).1
                = WatchAction.bump_failed)))
    ∧ (∀ (wv : Option Channel) (drop_id : String) (m : Nat) drop,
        drops_get drops drop_id = some drop → drop.can_earn wv = true →
        process_drops_progress drops true wv drop_id m
          = { rendezvous_result := some true, applied := some (drop_id, m) })
    ∧ (∀ (wv : Option Channel) (drop_id : String) (m : Nat),
        process_drops_progress drops false wv drop_id m
          = { rendezvous_result := none, applied := none }) := by
  refine ⟨rfl, ⟨rfl, ?_⟩, ?_, ?_, ?_, ?_, ?_, ?_⟩
  · cases hga : get_active_drop games inventory (some channel) (some channel) with
    | some d => exact Or.inl ⟨d, rfl, by simp [watch_step, hga]⟩
    | none => exact Or.inr ⟨rfl, by simp [watch_step, hga]⟩
  · cases poll with
    | none => rfl
    | some dd =>
        cases hdg : drops_get drops dd.dropID with
        | none => simp [watch_step, hdg]
        | some drop =>
            by_cases hce : drop.can_earn (some channel) = true <;>
              simp [watch_step, hdg, hce]
  · intro hpoll
    subst hpoll
    rfl
  · intro dd drop hpoll hdg hce
    subst hpoll
    simp [watch_step, hdg, hce]
  · intro dd hpoll hbad
    subst hpoll
    rcases hbad with hnone | ⟨drop, hdg, hce⟩
    · cases hga : get_active_drop games inventory (some channel) (some channel) with
      | some d => exact Or.inl ⟨d, rfl, by simp [watch_step, hnone, hga]⟩
      | none => exact Or.inr ⟨rfl, by simp [watch_step, hnone, hga]⟩
    · cases hga : get_active_drop games inventory (some channel) (some channel) with
      | some d => exact Or.inl ⟨d, rfl, by simp [watch_step, hdg, hce, hga]⟩
      | none => exact Or.inr ⟨rfl, by simp [watch_step, hdg, hce, hga]⟩
  · intro wv drop_id m drop hdg hce
    simp [process_drops_progress, hdg, hce]
  · intro wv drop_id m
    rfl

/-- Witness for C2 (amended): a negative resolution with a poll identifying a
tracked, earnable drop applies the poll's value. -/
theorem watch_step_spec_witness :
    (watch_step
        [("x", { id := "x", current_minutes := 3, remaining_minutes := 7,
                 can_earn := fun _ => true })]
        [] []
        { id := 1, name := "c", online := true, viewers := none, game := none,
          drops_enabled := true, priority := false }
        (Rendezvous.resolved false)
        (some { dropID := "x", currentMinutesWatched := 4 })).1
      = WatchAction.poll_applied "x" 4 :=
  (watch_step_spec
      [("x", { id := "x", current_minutes := 3, remaining_minutes := 7,
               can_earn := fun _ => true })]
      [] []
      { id := 1, name := "c", online := true, viewers := none, game := none,
        drops_enabled := true, priority := false }
      (some { dropID := "x", currentMinutesWatched := 4 })).2.2.2.2.1
    { dropID := "x", currentMinutesWatched := 4 }
    { id := "x", current_minutes := 3, remaining_minutes := 7,
      can_earn := fun _ => true } rfl rfl rfl

end TwitchDrops
